import Mathlib

/-
Verification of the apisprout mock-resolution engine.

This file gives a shallow embedding of the core logic of the apisprout
mock server (example.go and apisprout.go) and proves the specification
claims about it.  Go values of type interface produced by the example
synthesizer are modelled by the inductive type Value; Go float64 fields
of schemas are modelled by rationals (all computations the code performs
on them on the inputs at issue are exact in binary floating point);
Go maps are modelled by association lists that record insertion order,
with assignment replacing the value of an existing key.
-/

namespace Apisprout

/-- JSON-like values: the shape of Go interface values the synthesizer
produces (booleans, numbers, integers, strings, arrays, objects). -/
inductive Value where
  | null
  | bool (b : Bool)
  | num (q : ℚ)
  | int (n : ℤ)
  | str (s : String)
  | arr (elems : List Value)
  | obj (fields : List (String × Value))

/-- Mode of example generation (example.go): request or response body. -/
inductive Mode where
  | request
  | response
  deriving DecidableEq

/-- Go map assignment on an association list: replace the value of an
existing key in place, otherwise append the new entry. -/
def mapSet {β : Type} (m : List (String × β)) (k : String) (v : β) : List (String × β) :=
  match m with
  | [] => [(k, v)]
  | (k', v') :: rest => if k' = k then (k', v) :: rest else (k', v') :: mapSet rest k v

/-- mapContainsKey from apisprout.go: membership test on the prefer map. -/
def mapContainsKey (m : List (String × String)) (k : String) : Bool :=
  (m.lookup k).isSome

/-- Go map read: the zero value is returned for a missing key. -/
def mapGetD {β : Type} (m : List (String × β)) (k : String) (d : β) : β :=
  (m.lookup k).getD d

/-
The Prefer header parser (parsePreferHeader, apisprout.go).  The Go code
uses three regular expressions; each is embedded below as the character
scanner it denotes on the inputs the function feeds it.
-/

/-- Scanner for the Go regex matching a double-quoted run without inner
quotes, as used by FindAllString: returns every non-overlapping
leftmost quoted substring, quotes included; an unterminated final quote
yields no further matches. -/
def scanQuotedAux : List Char → Option (List Char) → List (List Char)
  | [], _ => []
  | c :: rest, none =>
    if c = '"' then scanQuotedAux rest (some []) else scanQuotedAux rest none
  | c :: rest, some acc =>
    if c = '"' then ('"' :: (acc.reverse ++ ['"'])) :: scanQuotedAux rest none
    else scanQuotedAux rest (some (c :: acc))

/-- All quoted substrings of the input, leftmost first. -/
def scanQuoted (l : List Char) : List (List Char) :=
  scanQuotedAux l none

/-- Go strings.Replace with count 1: replace the first occurrence of
pat by repl. -/
def replaceFirst (s pat repl : List Char) : List Char :=
  match s with
  | [] => []
  | c :: rest =>
    if pat.isPrefixOf (c :: rest) then repl ++ (c :: rest).drop pat.length
    else c :: replaceFirst rest pat repl

/-- Longest leading run of ASCII digits and the remainder. -/
def takeDigits : List Char → List Char × List Char
  | [] => ([], [])
  | c :: rest =>
    if c.isDigit then
      let (d, r) := takeDigits rest
      (c :: d, r)
    else ([], c :: rest)

/-- The placeholder the Go code writes for the idx-th quoted string:
two percent signs, the decimal digits of idx, two percent signs. -/
def placeholder (idx : Nat) : List Char :=
  '%' :: '%' :: (Nat.toDigits 10 idx ++ ['%', '%'])

/-- Replace each quoted string, in order, by its numbered placeholder
(first occurrence only, as strings.Replace with count 1 does). -/
def substPlaceholders : List Char → List (List Char) → Nat → List Char
  | v, [], _ => v
  | v, q :: qs, idx => substPlaceholders (replaceFirst v q (placeholder idx)) qs (idx + 1)

/-- Match the wildcard regex (two percents, digits, two percents) at the
head of the input: whole match, digit submatch, and the remainder. -/
def matchWildcardAt (l : List Char) : Option (List Char × List Char × List Char) :=
  match l with
  | '%' :: '%' :: rest =>
    match takeDigits rest with
    | (d, r) =>
      if d = [] then none
      else
        match r with
        | '%' :: '%' :: r2 => some ('%' :: '%' :: (d ++ ['%', '%']), d, r2)
        | _ => none
  | _ => none

/-- FindAllStringSubmatch for the wildcard regex: scan left to right,
emitting (whole match, digits) pairs and resuming after each match.
The fuel argument is the starting length of the input; every step
consumes at least one character, so it never runs out. -/
def scanWildcardsF : Nat → List Char → List (List Char × List Char)
  | 0, _ => []
  | _ + 1, [] => []
  | fuel + 1, c :: rest =>
    match matchWildcardAt (c :: rest) with
    | some (m, d, r2) => (m, d) :: scanWildcardsF fuel r2
    | none => scanWildcardsF fuel rest

/-- All wildcard matches of the input with their digit submatches. -/
def scanWildcards (l : List Char) : List (List Char × List Char) :=
  scanWildcardsF l.length l

/-- Numeric value of a digit run (strconv.Atoi on a digits-only string,
whose error the Go code discards). -/
def digitsToNat (ds : List Char) : Nat :=
  ds.foldl (fun a c => a * 10 + (c.toNat - 48)) 0

/-- Put the quoted strings back in place of their placeholders; an
out-of-range index would panic in Go and is modelled by the empty
replacement (unreachable for placeholders the parser itself wrote). -/
def restoreWildcards (quoted : List (List Char)) : List Char → List (List Char × List Char) → List Char
  | p, [] => p
  | p, (m, d) :: ws =>
    restoreWildcards quoted (replaceFirst p m (quoted.getD (digitsToNat d) [])) ws

/-- Split at every separator character (comma, semicolon or space), the
split of the Go regex alternation of those three characters; empty
pieces are kept, as Split keeps them. -/
def splitOnSepsAux : List Char → List Char → List (List Char)
  | [], acc => [acc.reverse]
  | c :: rest, acc =>
    if c = ',' ∨ c = ';' ∨ c = ' ' then acc.reverse :: splitOnSepsAux rest []
    else splitOnSepsAux rest (c :: acc)

/-- Split the input on the separator set of parsePreferHeader. -/
def splitOnSeps (l : List Char) : List (List Char) :=
  splitOnSepsAux l []

/-- Go strings.TrimSpace on a character list. -/
def goTrimSpace (l : List Char) : List Char :=
  ((l.dropWhile Char.isWhitespace).reverse.dropWhile Char.isWhitespace).reverse

/-- Go strings.Trim with a cutset of one double quote: drop every
leading and trailing quote character. -/
def trimQuoteChars (l : List Char) : List Char :=
  ((l.dropWhile (· = '"')).reverse.dropWhile (· = '"')).reverse

/-- Split at the first equals sign (strings.Index), if any. -/
def breakAtEq : List Char → Option (List Char × List Char)
  | [] => none
  | '=' :: rest => some ([], rest)
  | c :: rest =>
    match breakAtEq rest with
    | some (a, b) => some (c :: a, b)
    | none => none

/-- parsePreferHeader from apisprout.go: pull quoted substrings out and
replace them by placeholders, split on commas, semicolons and spaces,
trim each piece, restore the quoted substrings, and record each piece
as key=value (value stripped of surrounding quotes) or as a bare key
with the empty value. -/
def parsePreferHeader (value : String) : List (String × String) :=
  if value = "" then []
  else
    let chars := value.data
    let quoted := scanQuoted chars
    let subst := substPlaceholders chars quoted 0
    let pieces := splitOnSeps subst
    pieces.foldl
      (fun prefer piece =>
        let piece := goTrimSpace piece
        if piece = [] then prefer
        else
          let ws := scanWildcards piece
          let piece := restoreWildcards quoted piece ws
          match breakAtEq piece with
          | some (k, v) => mapSet prefer (String.mk k) (String.mk (trimQuoteChars v))
          | none => mapSet prefer (String.mk piece) "")
      []

/-
The content negotiator (apisprout.go).  NewContentNegotiator splits the
Accept header on commas, strips parameters and whitespace from each
piece via mime.ParseMediaType (which also lowercases), and compiles the
result with the glob library.  A glob with no separator characters
matches star against any character run; media-type patterns otherwise
consist of literal characters (a question mark matches one character).
-/

/-- Glob matching with explicit fuel; every step shortens pattern or
input, so fuel equal to the sum of both lengths plus one never runs
out. -/
def globMatchF : Nat → List Char → List Char → Bool
  | 0, _, _ => false
  | _ + 1, [], [] => true
  | _ + 1, [], _ :: _ => false
  | fuel + 1, '*' :: p, s =>
    globMatchF fuel p s ||
      (match s with
       | [] => false
       | _ :: s2 => globMatchF fuel ('*' :: p) s2)
  | fuel + 1, '?' :: p, s =>
    (match s with
     | [] => false
     | _ :: s2 => globMatchF fuel p s2)
  | fuel + 1, c :: p, s =>
    (match s with
     | [] => false
     | c2 :: s2 => c == c2 && globMatchF fuel p s2)

/-- Whether the compiled glob pattern matches the candidate string. -/
def globMatch (p s : List Char) : Bool :=
  globMatchF (p.length + s.length + 1) p s

/-- Go strings.Split on commas (empty pieces kept). -/
def splitOnCommaAux : List Char → List Char → List (List Char)
  | [], acc => [acc.reverse]
  | c :: rest, acc =>
    if c = ',' then acc.reverse :: splitOnCommaAux rest []
    else splitOnCommaAux rest (c :: acc)

/-- Split the Accept header value on commas. -/
def splitOnComma (l : List Char) : List (List Char) :=
  splitOnCommaAux l []

/-- mime.ParseMediaType as the Accept-header loop uses it: the piece
before any semicolon, trimmed of whitespace and lowercased (the
parameters and the error are discarded by the caller). -/
def parseMediaType (l : List Char) : List Char :=
  (goTrimSpace (l.takeWhile (· ≠ ';'))).map Char.toLower

/-- ContentNegotiator from apisprout.go: the compiled match patterns of
one Accept header. -/
structure ContentNegotiator where
  globs : List (List Char)

/-- NewContentNegotiator: one compiled pattern per comma-separated
Accept entry. -/
def NewContentNegotiator (accept : String) : ContentNegotiator :=
  ⟨(splitOnComma accept.data).map parseMediaType⟩

/-- Match returns true if the mediatype matches any pattern of the
accept header. -/
def ContentNegotiator.Match (cn : ContentNegotiator) (mediatype : String) : Bool :=
  cn.globs.any (fun g => globMatch g mediatype.data)

/-- The handler builds a negotiator only when the request carries a
non-empty Accept header; otherwise the negotiator stays nil. -/
def mkNegotiator (accept : String) : Option ContentNegotiator :=
  if accept = "" then none else some (NewContentNegotiator accept)

/-- The skip condition of the media-type loop in getExample: the Go
test that the negotiator is non-nil and rejects the mediatype. -/
def negRejects (neg : Option ContentNegotiator) (mediatype : String) : Bool :=
  match neg with
  | some cn => !cn.Match mediatype
  | none => false

/-
The example synthesizer (example.go).  An OpenAPI schema is modelled as
a finite tree: schema references are modelled as the resolved schema
values they point at (the Go code dereferences every SchemaRef and
skips nil references; nil-valued property references, which the Go
excludeFromMode treats as excluded, are not representable here).
Field names follow the Go struct, with Type spelled Typ because Type is
reserved in Lean.
-/

inductive Schema where
  | mk
    (typ : String)
    (format : String)
    (ex : Option Value)
    (df : Option Value)
    (enum : List Value)
    (min : Option ℚ)
    (max : Option ℚ)
    (exclusiveMin : Bool)
    (exclusiveMax : Bool)
    (multipleOf : Option ℚ)
    (minLength : Nat)
    (maxLength : Option Nat)
    (items : Option Schema)
    (minItems : Nat)
    (properties : List (String × Schema))
    (readOnly : Bool)
    (writeOnly : Bool)
    (additionalProperties : Option Schema)

def Schema.Typ : Schema → String
  | ⟨t, _, _, _, _, _, _, _, _, _, _, _, _, _, _, _, _, _⟩ => t

def Schema.Format : Schema → String
  | ⟨_, f, _, _, _, _, _, _, _, _, _, _, _, _, _, _, _, _⟩ => f

def Schema.Example : Schema → Option Value
  | ⟨_, _, e, _, _, _, _, _, _, _, _, _, _, _, _, _, _, _⟩ => e

def Schema.Default : Schema → Option Value
  | ⟨_, _, _, d, _, _, _, _, _, _, _, _, _, _, _, _, _, _⟩ => d

def Schema.Enum : Schema → List Value
  | ⟨_, _, _, _, e, _, _, _, _, _, _, _, _, _, _, _, _, _⟩ => e

def Schema.Min : Schema → Option ℚ
  | ⟨_, _, _, _, _, m, _, _, _, _, _, _, _, _, _, _, _, _⟩ => m

def Schema.Max : Schema → Option ℚ
  | ⟨_, _, _, _, _, _, m, _, _, _, _, _, _, _, _, _, _, _⟩ => m

def Schema.ExclusiveMin : Schema → Bool
  | ⟨_, _, _, _, _, _, _, b, _, _, _, _, _, _, _, _, _, _⟩ => b

def Schema.ExclusiveMax : Schema → Bool
  | ⟨_, _, _, _, _, _, _, _, b, _, _, _, _, _, _, _, _, _⟩ => b

def Schema.MultipleOf : Schema → Option ℚ
  | ⟨_, _, _, _, _, _, _, _, _, m, _, _, _, _, _, _, _, _⟩ => m

def Schema.MinLength : Schema → Nat
  | ⟨_, _, _, _, _, _, _, _, _, _, n, _, _, _, _, _, _, _⟩ => n

def Schema.MaxLength : Schema → Option Nat
  | ⟨_, _, _, _, _, _, _, _, _, _, _, n, _, _, _, _, _, _⟩ => n

def Schema.Items : Schema → Option Schema
  | ⟨_, _, _, _, _, _, _, _, _, _, _, _, i, _, _, _, _, _⟩ => i

def Schema.MinItems : Schema → Nat
  | ⟨_, _, _, _, _, _, _, _, _, _, _, _, _, n, _, _, _, _⟩ => n

def Schema.Properties : Schema → List (String × Schema)
  | ⟨_, _, _, _, _, _, _, _, _, _, _, _, _, _, p, _, _, _⟩ => p

def Schema.ReadOnly : Schema → Bool
  | ⟨_, _, _, _, _, _, _, _, _, _, _, _, _, _, _, b, _, _⟩ => b

def Schema.WriteOnly : Schema → Bool
  | ⟨_, _, _, _, _, _, _, _, _, _, _, _, _, _, _, _, b, _⟩ => b

def Schema.AdditionalProperties : Schema → Option Schema
  | ⟨_, _, _, _, _, _, _, _, _, _, _, _, _, _, _, _, _, a⟩ => a

/-- Errors of the tree synthesizer, one per error message the Go code
produces (ErrNoExample, and the three formatted cannot-get messages). -/
inductive ExErr where
  | noExample
  | cantGetProp (k : String)
  | cantGetItem
  | cantGetAddl
  deriving DecidableEq

/-- getSchemaExample from example.go: explicit example, then default,
then the first enum entry. -/
def getSchemaExample (schema : Schema) : Option Value :=
  match schema.Example with
  | some ex => some ex
  | none =>
    match schema.Default with
    | some d => some d
    | none =>
      match schema.Enum with
      | v :: _ => some v
      | [] => none

/-- stringFormatExample from example.go: the fixed canonical example
string of each recognized format, empty otherwise. -/
def stringFormatExample (format : String) : String :=
  match format with
  | "date" => "2018-07-23"
  | "date-time" => "2018-07-23T22:58:00-07:00"
  | "time" => "22:58:00-07:00"
  | "email" => "email@example.com"
  | "hostname" => "example.com"
  | "ipv4" => "198.51.100.0"
  | "ipv6" => "2001:0db8:85a3:0000:0000:8a2e:0370:7334"
  | "uri" => "https://tools.ietf.org/html/rfc3986"
  | "uri-template" => "http://example.com/dictionary/\x7bterm:1\x7d/\x7bterm\x7d"
  | "json-pointer" => "#/components/parameters/term"
  | "regex" => "/^1?$|^(11+?)\\1+$/"
  | "uuid" => "f81d4fae-7dec-11d0-a765-00a0c91e6bf6"
  | "password" => "********"
  | _ => ""

/-- excludeFromMode from example.go: a read-only schema is excluded
from requests, a write-only schema from responses.  (The Go nil-schema
case does not arise: references are modelled resolved.) -/
def excludeFromMode (mode : Mode) (schema : Schema) : Bool :=
  if mode = .request ∧ schema.ReadOnly then true
  else if mode = .response ∧ schema.WriteOnly then true
  else false

/-- Go conversion int(x) of a float64: truncation toward zero. -/
def goInt (q : ℚ) : ℤ :=
  if q < 0 then -Int.floor (-q) else Int.floor q

/-- The while loop of the string branch: double the string by
self-concatenation until its length reaches minLength.  The loop is
entered only with the non-empty seed, carried here as a hypothesis. -/
def growString (minLength : Nat) (s : String) (h : 0 < s.length) : String :=
  if minLength > s.length then
    growString minLength (s ++ s) (by simp [String.length_append]; omega)
  else s
termination_by minLength - s.length
decreasing_by simp [String.length_append]; omega

/-- The while loop of the array branch: append the example item until
the list reaches minItems elements. -/
def appendUntil (minItems : Nat) (ex : Value) (l : List Value) : List Value :=
  if l.length < minItems then appendUntil minItems ex (l ++ [ex]) else l
termination_by minItems - l.length
decreasing_by simp; omega

/-- The value computed by the number/integer branch of OpenAPIExample:
start at zero; clamp to a violated minimum (midpoint with a present
maximum, else one above, when the bound is exclusive); clamp to a
violated maximum (midpoint with a present minimum, else one below,
when exclusive); then round up to the next multiple of multipleOf
using Go integer truncation and the Go remainder. -/
def numericValue (schema : Schema) : ℚ :=
  let value : ℚ := 0
  let value :=
    match schema.Min with
    | some m =>
      if m > value then
        if schema.ExclusiveMin then
          match schema.Max with
          | some mx => (m + mx) / 2
          | none => m + 1
        else m
      else value
    | none => value
  let value :=
    match schema.Max with
    | some mx =>
      if mx < value then
        if schema.ExclusiveMax then
          match schema.Min with
          | some m => (m + mx) / 2
          | none => mx - 1
        else mx
      else value
    | none => value
  match schema.MultipleOf with
  | some mo =>
    if Int.tmod (goInt value) (goInt mo) ≠ 0 then
      value + ((goInt mo - Int.tmod (goInt value) (goInt mo) : ℤ) : ℚ)
    else value
  | none => value

/-- The string the Go while loop builds: the literal seed doubled by
self-concatenation until its length reaches minLength. -/
def grownString (minLength : Nat) : String :=
  growString minLength "string" (by decide)

/-- The string computed by the string branch of OpenAPIExample: the
format example when the format is recognized, else the grown seed
truncated to maxLength when that is set and smaller. -/
def stringExample (schema : Schema) : String :=
  let fx := stringFormatExample schema.Format
  if fx ≠ "" then fx
  else
    let ex := grownString schema.MinLength
    match schema.MaxLength with
    | some maxLen => if maxLen < ex.length then ex.take maxLen else ex
    | none => ex

mutual

/-- OpenAPIExample from example.go: explicit example, default or first
enum entry first, then synthesis by schema kind in the order of the Go
switch (boolean; number and integer; string; array; object), failing
with ErrNoExample when no case applies. -/
def OpenAPIExample (mode : Mode) (schema : Schema) : Except ExErr Value :=
  match getSchemaExample schema with
  | some ex => .ok ex
  | none =>
    if schema.Typ = "boolean" then .ok (.bool true)
    else if schema.Typ = "number" ∨ schema.Typ = "integer" then
      if schema.Typ = "integer" then .ok (.int (goInt (numericValue schema)))
      else .ok (.num (numericValue schema))
    else if schema.Typ = "string" then .ok (.str (stringExample schema))
    else if schema.Typ = "array" ∨ schema.Items.isSome then
      match hit : schema.Items with
      | some item =>
        match OpenAPIExample mode item with
        | .error _ => .error .cantGetItem
        | .ok ex => .ok (.arr (appendUntil schema.MinItems ex [ex]))
      | none => .ok (.arr [])
    else if schema.Typ = "object" ∨ schema.Properties.length > 0 then
      match exampleProperties mode [] schema.Properties with
      | .error e => .error e
      | .ok m =>
        match had : schema.AdditionalProperties with
        | some addl =>
          if ¬ excludeFromMode mode addl then
            match OpenAPIExample mode addl with
            | .error _ => .error .cantGetAddl
            | .ok ex => .ok (.obj (mapSet m "additionalPropertyName" ex))
          else .ok (.obj m)
        | none => .ok (.obj m)
    else .error .noExample
termination_by sizeOf schema
decreasing_by
  · obtain ⟨t, fm, ex, df, en, mi, ma, bmi, bma, mo, mnl, mxl, it, mni, pr, ro, wo, ad⟩ := schema
    simp only [Schema.Items] at hit
    subst hit
    simp
    omega
  · obtain ⟨t, fm, ex, df, en, mi, ma, bmi, bma, mo, mnl, mxl, it, mni, pr, ro, wo, ad⟩ := schema
    simp only [Schema.Properties]
    simp
    omega
  · obtain ⟨t, fm, ex, df, en, mi, ma, bmi, bma, mo, mnl, mxl, it, mni, pr, ro, wo, ad⟩ := schema
    simp only [Schema.AdditionalProperties] at had
    subst had
    simp
    omega

/-- The property loop of the object branch: skip mode-excluded
properties, otherwise recurse, renaming any failure after the property
and assigning the result under the property name. -/
def exampleProperties (mode : Mode) (acc : List (String × Value)) (props : List (String × Schema)) :
    Except ExErr (List (String × Value)) :=
  match props with
  | [] => .ok acc
  | (k, v) :: rest =>
    if excludeFromMode mode v then exampleProperties mode acc rest
    else
      match OpenAPIExample mode v with
      | .error _ => .error (.cantGetProp k)
      | .ok ex => exampleProperties mode (mapSet acc k ex) rest
termination_by sizeOf props
decreasing_by all_goals (simp; try omega)

end

/-- k copies of the literal seed string, concatenated. -/
def repString : Nat → String
  | 0 => ""
  | k + 1 => "string" ++ repString k

/-- A concrete numeric schema: exclusive minimum 5, no maximum. -/
def exNumNoMax : Schema :=
  Schema.mk "number" "" none none [] (some 5) none true false none 0 none none 0 [] false false none

/-- A concrete numeric schema: exclusive minimum 5, maximum 5.5. -/
def exNumMax : Schema :=
  Schema.mk "number" "" none none [] (some 5) (some 5.5) true false none 0 none none 0 [] false false none

/-- A concrete string schema with minLength 10 and nothing else. -/
def exStrMin10 : Schema :=
  Schema.mk "string" "" none none [] none none false false none 10 none none 0 [] false false none

/-- A concrete read-only boolean property schema. -/
def roProp : Schema :=
  Schema.mk "boolean" "" none none [] none none false false none 0 none none 0 [] true false none

/-- A concrete write-only boolean property schema. -/
def woProp : Schema :=
  Schema.mk "boolean" "" none none [] none none false false none 0 none none 0 [] false true none

/-- A concrete object schema with one read-only and one write-only
property. -/
def exObj : Schema :=
  Schema.mk "object" "" none none [] none none false false none 0 none none 0
    [("ro", roProp), ("wo", woProp)] false false none

/-
The response selector (getExample and getTypedExample, apisprout.go).
Response maps are modelled as association lists whose order stands for
the map iteration order; the random index into the named examples is
modelled by an explicit pick strategy.  The response headers, which
getExample passes through unchanged, are not modelled.
-/

/-- An openapi3.MediaType as getTypedExample consumes it: an optional
direct example, named examples (references resolved to their values),
and an optional schema. -/
structure MediaType where
  Example : Option Value
  Examples : List (String × Value)
  Schema : Option Schema

/-- An openapi3.Response as getExample consumes it: the content map, or
none when the response declares no body (a nil Content map in Go). -/
structure Response where
  Content : Option (List (String × MediaType))

/-- An openapi3.Operation restricted to what getExample reads: its
responses keyed by status string or the literal default. -/
structure Operation where
  Responses : List (String × Response)

/-- strconv.Atoi: an optional sign followed by one or more digits
(64-bit overflow, which no status string reaches, is not modelled). -/
def atoi? (s : String) : Option Int :=
  match s.data with
  | [] => none
  | '+' :: ds =>
    if ds ≠ [] ∧ ds.all Char.isDigit then some (digitsToNat ds) else none
  | '-' :: ds =>
    if ds ≠ [] ∧ ds.all Char.isDigit then some (-(digitsToNat ds : Int)) else none
  | ds =>
    if ds.all Char.isDigit then some (digitsToNat ds) else none

/-- getTypedExample from apisprout.go: the direct example wins; else a
named example (the one a prefer directive names when it exists, else
one picked by the random strategy); else synthesis from the schema in
response mode; else ErrNoExample.  The lookup of a picked key cannot
miss in Go; the defaulted lookup models the panic that would follow. -/
def getTypedExample (prefer : List (String × String)) (pick : Nat → Nat) (mt : MediaType) :
    Except ExErr Value :=
  match mt.Example with
  | some v => .ok v
  | none =>
    match mt.Examples with
    | [] =>
      match mt.Schema with
      | some sch => OpenAPIExample .response sch
      | none => .error .noExample
    | e :: es =>
      if mapContainsKey prefer "example" &&
          ((e :: es).lookup (mapGetD prefer "example" "")).isSome then
        .ok (((e :: es).lookup (mapGetD prefer "example" "")).getD .null)
      else
        let keys := (e :: es).map Prod.fst
        let selected := keys.getD (pick keys.length) ""
        .ok (((e :: es).lookup selected).getD .null)

/-- The status code getExample computes for one response key: the key
itself when numeric, else the numeric value of the status directive,
else 200. -/
def respStatus (prefer : List (String × String)) (s : String) : Int :=
  match atoi? s with
  | some v => v
  | none =>
    match atoi? (mapGetD prefer "status" "") with
    | some v => v
    | none => 200

/-- The media-type loop of getExample: skip entries the negotiator
rejects, return the first entry whose example resolution succeeds, and
treat resolution failures as recoverable by moving on. -/
def tryContent (neg : Option ContentNegotiator) (prefer : List (String × String))
    (pick : Nat → Nat) (status : Int) :
    List (String × MediaType) → Option (Int × String × Value)
  | [] => none
  | (mt, content) :: rest =>
    if negRejects neg mt then tryContent neg prefer pick status rest
    else
      match getTypedExample prefer pick content with
      | .ok ex => some (status, mt, ex)
      | .error _ => tryContent neg prefer pick status rest

/-- The response loop of getExample: a response without content returns
immediately with an empty body; otherwise the first media type that
yields a value wins, and an exhausted response falls through to the
next candidate. -/
def tryResponses (neg : Option ContentNegotiator) (prefer : List (String × String))
    (pick : Nat → Nat) : List (String × Response) → Option (Int × String × Value)
  | [] => none
  | (s, response) :: rest =>
    let status := respStatus prefer s
    match response.Content with
    | none => some (status, "", .str "")
    | some content =>
      match tryContent neg prefer pick status content with
      | some out => some out
      | none => tryResponses neg prefer pick rest

/-- Whether a response key parses as a 2xx status code. -/
def isSuccessCode (s : String) : Bool :=
  match atoi? s with
  | some v => 200 ≤ v && v < 300
  | none => false

/-- The candidate ordering of getExample without a status directive:
success responses before all others, otherwise in map order. -/
def orderResponses (rs : List (String × Response)) : List (String × Response) :=
  rs.filter (fun p => isSuccessCode p.1) ++ rs.filter (fun p => !isSuccessCode p.1)

/-- getExample from apisprout.go: with no status directive every
response is a candidate, success codes first; with a status directive
the exactly matching response key is the sole candidate, else the
default response when declared, else the selection fails; the
candidates are then scanned for the first example, and exhaustion
fails with ErrNoExample. -/
def getExample (neg : Option ContentNegotiator) (prefer : List (String × String))
    (pick : Nat → Nat) (op : Operation) : Except ExErr (Int × String × Value) :=
  let candidates : Except ExErr (List (String × Response)) :=
    if !(mapContainsKey prefer "status") then .ok (orderResponses op.Responses)
    else
      match op.Responses.lookup (mapGetD prefer "status" "") with
      | some r => .ok [(mapGetD prefer "status" "", r)]
      | none =>
        match op.Responses.lookup "default" with
        | some r => .ok [("default", r)]
        | none => .error .noExample
  match candidates with
  | .error e => .error e
  | .ok rs =>
    match tryResponses neg prefer pick rs with
    | some out => .ok out
    | none => .error .noExample

/-
The cycle-safe example synthesizer of claim C1.  The current example.go
of the repository, which threads a visited path through the recursion,
is not among the provided sources: only its tests (TestRecursiveSchema
in example_test.go), the ErrRecursive declaration and its callers are.
The synthesizer below is therefore modelled from the specification
(section 4.1 and its cycle rule), over schema graphs represented as an
arena of nodes addressed by index, as the spec's design notes suggest.
-/

/-- Modelled from the spec: the errors of the cycle-safe synthesizer —
the no-example-derivable error, the recursion error of the cycle rule,
and the annotated propagation of a nested failure through a property,
an array item or the additional-properties schema. -/
inductive SpecErr where
  | noExample
  | recursive
  | property (name : String) (cause : SpecErr)
  | item (cause : SpecErr)
  | additional (cause : SpecErr)

/-- Whether the root cause of a propagated error is the recursion
error. -/
def SpecErr.isRec : SpecErr → Bool
  | .recursive => true
  | .property _ e => e.isRec
  | .item e => e.isRec
  | .additional e => e.isRec
  | .noExample => false

/-- Modelled from the spec: one node of a schema graph; nested schemas
(items, properties, additionalProperties) are arena indices, so the
graph may be cyclic; the readOnly/writeOnly flag of a property lives on
the node the property references. -/
structure SchemaNode where
  typ : String
  format : String
  exampleVal : Option Value
  defaultVal : Option Value
  enum : List Value
  min : Option ℚ
  max : Option ℚ
  exclusiveMin : Bool
  exclusiveMax : Bool
  multipleOf : Option ℚ
  minLength : Nat
  maxLength : Option Nat
  items : Option Nat
  minItems : Nat
  properties : List (String × Nat)
  readOnly : Bool
  writeOnly : Bool
  additionalProperties : Option Nat

/-- Modelled from the spec: steps one to three of the synthesis
algorithm — explicit example, then default, then the first enum
entry. -/
def nodeExplicit (n : SchemaNode) : Option Value :=
  match n.exampleVal with
  | some v => some v
  | none =>
    match n.defaultVal with
    | some v => some v
    | none =>
      match n.enum with
      | v :: _ => some v
      | [] => none

/-- Modelled from the spec: the numeric rule — start at zero, clamp to
a violated minimum (midpoint when exclusive with a maximum present,
else one above), clamp to a violated maximum (midpoint when exclusive
with a minimum present, else one below), then round up to the next
multiple of multipleOf. -/
def nodeNumeric (n : SchemaNode) : ℚ :=
  let value : ℚ := 0
  let value :=
    match n.min with
    | some m =>
      if m > value then
        if n.exclusiveMin then
          match n.max with
          | some mx => (m + mx) / 2
          | none => m + 1
        else m
      else value
    | none => value
  let value :=
    match n.max with
    | some mx =>
      if mx < value then
        if n.exclusiveMax then
          match n.min with
          | some m => (m + mx) / 2
          | none => mx - 1
        else mx
      else value
    | none => value
  match n.multipleOf with
  | some mo =>
    if Int.tmod (goInt value) (goInt mo) ≠ 0 then
      value + ((goInt mo - Int.tmod (goInt value) (goInt mo) : ℤ) : ℚ)
    else value
  | none => value

/-- Modelled from the spec: the string rule — the canonical example of
a recognized format, else the literal seed doubled up to minLength and
truncated to maxLength when that is set and smaller. -/
def nodeString (n : SchemaNode) : String :=
  let fx := stringFormatExample n.format
  if fx ≠ "" then fx
  else
    let ex := grownString n.minLength
    match n.maxLength with
    | some maxLen => if maxLen < ex.length then ex.take maxLen else ex
    | none => ex

/-- Modelled from the spec: mode exclusion of a referenced schema — a
read-only schema is excluded from requests and a write-only one from
responses; a dangling reference is excluded like a nil schema. -/
def excludeNodeRef (g : List SchemaNode) (mode : Mode) (j : Nat) : Bool :=
  match g[j]? with
  | some n => (mode = .request && n.readOnly) || (mode = .response && n.writeOnly)
  | none => true

mutual

/-- Modelled from the spec: the cycle-safe Example Synthesizer over a
schema graph, Synthesize(schema, mode, visitedPath).  A node whose
identity already appears in the visited path fails with the recursion
error; otherwise the node is pushed onto the path for the nested
recursions — equivalently, the path is checked before each recursion
into a nested schema — and returning leaves the caller's path
unchanged, so a node reachable from a sibling branch is synthesized
independently.  The path never holds more than the number of nodes, so
the recursion depth is bounded by the size of the graph. -/
def synthNode (g : List SchemaNode) (mode : Mode) (visited : List Nat) (i : Nat) :
    Except SpecErr Value :=
  match hn : g[i]? with
  | none => .error .noExample
  | some node =>
    if hv : i ∈ visited then .error .recursive
    else
      match nodeExplicit node with
      | some v => .ok v
      | none =>
        if node.typ = "boolean" then .ok (.bool true)
        else if node.typ = "number" then .ok (.num (nodeNumeric node))
        else if node.typ = "integer" then .ok (.int (goInt (nodeNumeric node)))
        else if node.typ = "string" then .ok (.str (nodeString node))
        else if node.typ = "array" ∨ node.items.isSome then
          match node.items with
          | some j =>
            match synthNode g mode (i :: visited) j with
            | .error e => .error (.item e)
            | .ok ex => .ok (.arr (appendUntil node.minItems ex [ex]))
          | none => .ok (.arr [])
        else if node.typ = "object" ∨ node.properties.length > 0 then
          match synthProps g mode (i :: visited) [] node.properties with
          | .error e => .error e
          | .ok m =>
            match node.additionalProperties with
            | some j =>
              if !(excludeNodeRef g mode j) then
                match synthNode g mode (i :: visited) j with
                | .error e => .error (.additional e)
                | .ok ex => .ok (.obj (mapSet m "additionalPropertyName" ex))
              else .ok (.obj m)
            | none => .ok (.obj m)
        else .error .noExample
termination_by ((Finset.range g.length \ visited.toFinset).card, 0)
decreasing_by
  all_goals
    refine Prod.Lex.left _ _ ?_
    have hi : i < g.length := by
      by_contra hc
      rw [List.getElem?_eq_none (by omega)] at hn
      simp at hn
    rw [List.toFinset_cons]
    refine Finset.card_lt_card ?_
    rw [Finset.ssubset_iff_of_subset
      (Finset.sdiff_subset_sdiff (le_refl _) (Finset.subset_insert _ _))]
    exact ⟨i, by simp [hi, hv], by simp⟩

/-- Modelled from the spec: the property loop of the object rule — skip
mode-excluded properties, recurse on the rest with the extended path,
and annotate a nested failure with the property name. -/
def synthProps (g : List SchemaNode) (mode : Mode) (visited : List Nat)
    (acc : List (String × Value)) (props : List (String × Nat)) :
    Except SpecErr (List (String × Value)) :=
  match props with
  | [] => .ok acc
  | (k, j) :: rest =>
    if excludeNodeRef g mode j then synthProps g mode visited acc rest
    else
      match synthNode g mode visited j with
      | .error e => .error (.property k e)
      | .ok ex => synthProps g mode visited (mapSet acc k ex) rest
termination_by ((Finset.range g.length \ visited.toFinset).card, props.length + 1)
decreasing_by
  all_goals exact Prod.Lex.right _ (by simp)

end

/-- Modelled from the spec: the top-level synthesis entry, called with
an empty visited path. -/
def Synthesize (g : List SchemaNode) (mode : Mode) (i : Nat) : Except SpecErr Value :=
  synthNode g mode [] i

/-- The object node of the self-referential chain whose single property
references index t. -/
def chainNode (t : Nat) : SchemaNode :=
  ⟨"object", "", none, none, [], none, none, false, false, none, 0, none, none, 0,
    [("next", t)], false, false, none⟩

/-- The chain of n+1 object nodes in which node k references node k+1
and the last node references itself: a schema graph that references
itself along a single root-to-leaf synthesis path, at depth n. -/
def selfChain (n : Nat) : List SchemaNode :=
  (List.range (n + 1)).map (fun k => chainNode (min (k + 1) n))

/-! The theorems: the claims of the specification and the lemmas they
rest on. -/

theorem repString_add (a b : Nat) : repString (a + b) = repString a ++ repString b := by
  induction a with
  | zero => simp [repString]
  | succ a ih =>
    have : a + 1 + b = (a + b) + 1 := by omega
    rw [this]
    simp only [repString, ih]
    rw [String.append_assoc]

theorem getSchemaExample_eq_none {s : Schema} (h1 : s.Example = none) (h2 : s.Default = none)
    (h3 : s.Enum = []) : getSchemaExample s = none := by
  simp [getSchemaExample, h1, h2, h3]

theorem getSchemaExample_of_example {s : Schema} {v : Value} (h : s.Example = some v) :
    getSchemaExample s = some v := by
  simp [getSchemaExample, h]

theorem getSchemaExample_of_default {s : Schema} {v : Value} (h1 : s.Example = none)
    (h2 : s.Default = some v) : getSchemaExample s = some v := by
  simp [getSchemaExample, h1, h2]

theorem getSchemaExample_of_enum {s : Schema} {v : Value} {rest : List Value}
    (h1 : s.Example = none) (h2 : s.Default = none) (h3 : s.Enum = v :: rest) :
    getSchemaExample s = some v := by
  simp [getSchemaExample, h1, h2, h3]

theorem OpenAPIExample_of_getSchemaExample {mode : Mode} {s : Schema} {v : Value}
    (h : getSchemaExample s = some v) : OpenAPIExample mode s = .ok v := by
  rw [OpenAPIExample.eq_def, h]

theorem OpenAPIExample_boolean {mode : Mode} {s : Schema} (h0 : getSchemaExample s = none)
    (h1 : s.Typ = "boolean") : OpenAPIExample mode s = .ok (.bool true) := by
  rw [OpenAPIExample.eq_def, h0]
  simp [h1]

theorem OpenAPIExample_number {mode : Mode} {s : Schema} (h0 : getSchemaExample s = none)
    (h1 : s.Typ = "number") : OpenAPIExample mode s = .ok (.num (numericValue s)) := by
  rw [OpenAPIExample.eq_def, h0]
  simp [h1]

theorem OpenAPIExample_integer {mode : Mode} {s : Schema} (h0 : getSchemaExample s = none)
    (h1 : s.Typ = "integer") : OpenAPIExample mode s = .ok (.int (goInt (numericValue s))) := by
  rw [OpenAPIExample.eq_def, h0]
  simp [h1]

theorem OpenAPIExample_string {mode : Mode} {s : Schema} (h0 : getSchemaExample s = none)
    (h1 : s.Typ = "string") : OpenAPIExample mode s = .ok (.str (stringExample s)) := by
  rw [OpenAPIExample.eq_def, h0]
  simp [h1]

theorem OpenAPIExample_object {mode : Mode} {s : Schema} (h0 : getSchemaExample s = none)
    (h1 : s.Typ = "object") (h2 : s.Items = none) :
    OpenAPIExample mode s =
      (match exampleProperties mode [] s.Properties with
       | .error e => .error e
       | .ok m =>
         match s.AdditionalProperties with
         | some addl =>
           if ¬ excludeFromMode mode addl then
             match OpenAPIExample mode addl with
             | .error _ => .error .cantGetAddl
             | .ok ex => .ok (.obj (mapSet m "additionalPropertyName" ex))
           else .ok (.obj m)
         | none => .ok (.obj m)) := by
  rw [OpenAPIExample.eq_def, h0]
  simp [h1, h2]
  rcases hep : exampleProperties mode [] s.Properties with e | m
  · rfl
  · rcases ha : s.AdditionalProperties with _ | addl <;> rfl

theorem numericValue_min_excl_noMax {s : Schema} {m : ℚ} (hm : s.Min = some m) (h0 : 0 < m)
    (hex : s.ExclusiveMin = true) (hM : s.Max = none) (hmo : s.MultipleOf = none) :
    numericValue s = m + 1 := by
  simp [numericValue, hm, hex, hM, hmo, h0]

theorem numericValue_min_excl_max {s : Schema} {m M : ℚ} (hm : s.Min = some m) (h0 : 0 < m)
    (hex : s.ExclusiveMin = true) (hM : s.Max = some M) (hle : m ≤ M)
    (hmo : s.MultipleOf = none) : numericValue s = (m + M) / 2 := by
  have hmid : ¬ M < (m + M) / 2 := by
    rw [not_lt]
    linarith
  simp [numericValue, hm, hex, hM, hmo, h0, hmid]

theorem numericValue_unconstrained {s : Schema} (hm : s.Min = none) (hM : s.Max = none)
    (hmo : s.MultipleOf = none) : numericValue s = 0 := by
  simp [numericValue, hm, hM, hmo]

theorem growString_minLength_le (minLength : Nat) (s : String) (h : 0 < s.length) :
    minLength ≤ (growString minLength s h).length := by
  induction s, h using growString.induct minLength with
  | case1 s h hgt ih =>
    rw [growString.eq_def]
    simpa [hgt] using ih
  | case2 s h hle =>
    rw [growString.eq_def]
    simp [hle]
    omega

theorem grownString_minLength_le (minLength : Nat) :
    minLength ≤ (grownString minLength).length :=
  growString_minLength_le minLength "string" (by decide)

theorem growString_rep (minLength : Nat) (s : String) (h : 0 < s.length) :
    (∃ k, 0 < k ∧ s = repString k) → ∃ j, 0 < j ∧ growString minLength s h = repString j := by
  induction s, h using growString.induct minLength with
  | case1 s h hgt ih =>
    rintro ⟨k, hk, rfl⟩
    rw [growString.eq_def]
    simp only [hgt, if_pos]
    exact ih ⟨k + k, by omega, (repString_add k k).symm⟩
  | case2 s h hle =>
    intro hex
    rw [growString.eq_def]
    simpa [hle] using hex

theorem grownString_rep (minLength : Nat) :
    ∃ j, 0 < j ∧ grownString minLength = repString j := by
  rw [grownString]
  exact growString_rep minLength "string" (by decide) ⟨1, by omega, by rfl⟩

/-- C2: for every schema, OpenAPIExample returns the explicit example
verbatim when it is set, otherwise the default when set, otherwise the
first element of a non-empty enum, these three sources taking priority
in that order over all kind-based synthesis. -/
theorem c2_explicit_sources (mode : Mode) (s : Schema) (v : Value) :
    (s.Example = some v → OpenAPIExample mode s = .ok v) ∧
    (s.Example = none → s.Default = some v → OpenAPIExample mode s = .ok v) ∧
    (s.Example = none → s.Default = none → ∀ rest : List Value, s.Enum = v :: rest →
      OpenAPIExample mode s = .ok v) := by
  refine ⟨fun h => ?_, fun h1 h2 => ?_, fun h1 h2 rest h3 => ?_⟩
  · exact OpenAPIExample_of_getSchemaExample (getSchemaExample_of_example h)
  · exact OpenAPIExample_of_getSchemaExample (getSchemaExample_of_default h1 h2)
  · exact OpenAPIExample_of_getSchemaExample (getSchemaExample_of_enum h1 h2 h3)

/-- Witness for C2: concrete boolean-typed schemas whose explicit
example, default and first enum entry override the boolean synthesis. -/
theorem c2_explicit_sources_witness :
    OpenAPIExample .response (Schema.mk "boolean" "" (some (.str "x")) (some (.num 3)) []
      none none false false none 0 none none 0 [] false false none) = .ok (.str "x") ∧
    OpenAPIExample .response (Schema.mk "boolean" "" none (some (.num 3)) [.bool false]
      none none false false none 0 none none 0 [] false false none) = .ok (.num 3) ∧
    OpenAPIExample .response (Schema.mk "boolean" "" none none [.bool false]
      none none false false none 0 none none 0 [] false false none) = .ok (.bool false) :=
  ⟨(c2_explicit_sources _ _ _).1 rfl,
   (c2_explicit_sources _ _ _).2.1 rfl rfl,
   (c2_explicit_sources _ _ _).2.2 rfl rfl _ rfl⟩

/-- C3: the numeric branch starts at zero; with an exclusive minimum
and no maximum it yields the minimum plus one, with an exclusive
minimum and a maximum it yields the midpoint of the two bounds. -/
theorem c3_numeric_bounds (mode : Mode) (s : Schema) (m M : ℚ)
    (h1 : s.Example = none) (h2 : s.Default = none) (h3 : s.Enum = [])
    (hT : s.Typ = "number") :
    (s.Min = some m → 0 < m → s.ExclusiveMin = true → s.Max = none → s.MultipleOf = none →
      OpenAPIExample mode s = .ok (.num (m + 1))) ∧
    (s.Min = some m → 0 < m → s.ExclusiveMin = true → s.Max = some M → m ≤ M →
      s.MultipleOf = none → OpenAPIExample mode s = .ok (.num ((m + M) / 2))) ∧
    (s.Min = none → s.Max = none → s.MultipleOf = none →
      OpenAPIExample mode s = .ok (.num 0)) := by
  have h0 := getSchemaExample_eq_none h1 h2 h3
  refine ⟨fun hm hp hex hM hmo => ?_, fun hm hp hex hM hle hmo => ?_, fun hm hM hmo => ?_⟩
  · rw [OpenAPIExample_number h0 hT, numericValue_min_excl_noMax hm hp hex hM hmo]
  · rw [OpenAPIExample_number h0 hT, numericValue_min_excl_max hm hp hex hM hle hmo]
  · rw [OpenAPIExample_number h0 hT, numericValue_unconstrained hm hM hmo]

/-- Witness for C3: exclusive minimum 5 without maximum gives 6;
exclusive minimum 5 with maximum 5.5 gives the midpoint 5.25. -/
theorem c3_numeric_bounds_witness :
    OpenAPIExample .response exNumNoMax = .ok (.num 6) ∧
    OpenAPIExample .response exNumMax = .ok (.num 5.25) := by
  constructor
  · have h := (c3_numeric_bounds .response exNumNoMax 5 0 rfl rfl rfl rfl).1 rfl (by norm_num)
      rfl rfl rfl
    norm_num at h
    exact h
  · have h := (c3_numeric_bounds .response exNumMax 5 5.5 rfl rfl rfl rfl).2.1 rfl (by norm_num)
      rfl rfl (by norm_num) rfl
    rw [show (5.25 : ℚ) = (5 + 5.5) / 2 from by norm_num]
    exact h

/-- C4: the string branch without a recognized format starts from the
literal seed and doubles it until its length reaches minLength (the
result is a repetition of the seed of sufficient length), truncating
to maxLength when that is set and smaller than the built string. -/
theorem c4_string_growth (mode : Mode) (s : Schema)
    (h1 : s.Example = none) (h2 : s.Default = none) (h3 : s.Enum = [])
    (hT : s.Typ = "string") (hf : stringFormatExample s.Format = "") :
    (s.MaxLength = none →
      ∃ str j, OpenAPIExample mode s = .ok (.str str) ∧
        s.MinLength ≤ str.length ∧ 0 < j ∧ str = repString j) ∧
    (∀ L, s.MaxLength = some L →
      (L < (grownString s.MinLength).length →
        OpenAPIExample mode s = .ok (.str ((grownString s.MinLength).take L))) ∧
      (¬ L < (grownString s.MinLength).length →
        OpenAPIExample mode s = .ok (.str (grownString s.MinLength)))) := by
  have h0 := getSchemaExample_eq_none h1 h2 h3
  have hstr : OpenAPIExample mode s = .ok (.str (stringExample s)) :=
    OpenAPIExample_string h0 hT
  constructor
  · intro hM
    have hse : stringExample s = grownString s.MinLength := by
      simp [stringExample, hf, hM]
    obtain ⟨j, hj, hrep⟩ := grownString_rep s.MinLength
    exact ⟨grownString s.MinLength, j, by rw [hstr, hse],
      grownString_minLength_le s.MinLength, hj, hrep⟩
  · intro L hM
    constructor
    · intro hlt
      have hse : stringExample s = (grownString s.MinLength).take L := by
        simp [stringExample, hf, hM, hlt]
      rw [hstr, hse]
    · intro hge
      have hse : stringExample s = grownString s.MinLength := by
        simp [stringExample, hf, hM, hge]
      rw [hstr, hse]

/-- Witness for C4: a plain string schema with minLength 10 yields a
repetition of the seed whose length is at least 10. -/
theorem c4_string_growth_witness :
    ∃ str j,
      OpenAPIExample .response exStrMin10 = .ok (.str str) ∧
      10 ≤ str.length ∧ 0 < j ∧ str = repString j :=
  (c4_string_growth .response exStrMin10 rfl rfl rfl rfl rfl).1 rfl

theorem mapSet_map_fst_mem {β : Type} (m : List (String × β)) (k : String) (v : β)
    (k2 : String) : k2 ∈ (mapSet m k v).map Prod.fst ↔ k2 = k ∨ k2 ∈ m.map Prod.fst := by
  induction m with
  | nil => simp [mapSet]
  | cons p rest ih =>
    obtain ⟨k', v'⟩ := p
    by_cases h : k' = k
    · subst h
      simp [mapSet]
      try tauto
    · simp [mapSet, h, ih]
      try tauto

theorem exampleProperties_nil (mode : Mode) (acc : List (String × Value)) :
    exampleProperties mode acc [] = .ok acc := by
  rw [exampleProperties.eq_def]

theorem exampleProperties_cons_excl {mode : Mode} {acc : List (String × Value)} {k : String}
    {v : Schema} {rest : List (String × Schema)} (h : excludeFromMode mode v = true) :
    exampleProperties mode acc ((k, v) :: rest) = exampleProperties mode acc rest := by
  rw [exampleProperties.eq_def]
  simp [h]

theorem exampleProperties_cons_err {mode : Mode} {acc : List (String × Value)} {k : String}
    {v : Schema} {rest : List (String × Schema)} {e : ExErr}
    (h1 : excludeFromMode mode v = false) (h2 : OpenAPIExample mode v = .error e) :
    exampleProperties mode acc ((k, v) :: rest) = .error (.cantGetProp k) := by
  rw [exampleProperties.eq_def]
  simp [h1, h2]

theorem exampleProperties_cons_ok {mode : Mode} {acc : List (String × Value)} {k : String}
    {v : Schema} {rest : List (String × Schema)} {ex : Value}
    (h1 : excludeFromMode mode v = false) (h2 : OpenAPIExample mode v = .ok ex) :
    exampleProperties mode acc ((k, v) :: rest) = exampleProperties mode (mapSet acc k ex) rest := by
  rw [exampleProperties.eq_def]
  simp [h1, h2]

theorem exampleProperties_not_mem {mode : Mode} {props : List (String × Schema)}
    {acc m : List (String × Value)} {k : String}
    (hacc : k ∉ acc.map Prod.fst) (hprops : k ∉ props.map Prod.fst)
    (h : exampleProperties mode acc props = .ok m) : k ∉ m.map Prod.fst := by
  induction props generalizing acc with
  | nil =>
    rw [exampleProperties_nil] at h
    simp only [Except.ok.injEq] at h
    subst h
    exact hacc
  | cons p rest ih =>
    obtain ⟨k', v'⟩ := p
    simp only [List.map_cons, List.mem_cons, not_or] at hprops
    cases hexcl : excludeFromMode mode v' with
    | true =>
      rw [exampleProperties_cons_excl hexcl] at h
      exact ih hacc hprops.2 h
    | false =>
      cases hoe : OpenAPIExample mode v' with
      | error e =>
        rw [exampleProperties_cons_err hexcl hoe] at h
        simp at h
      | ok ex =>
        rw [exampleProperties_cons_ok hexcl hoe] at h
        refine ih ?_ hprops.2 h
        rw [mapSet_map_fst_mem]
        push_neg
        exact ⟨hprops.1, hacc⟩

theorem exampleProperties_mem_of_acc {mode : Mode} {props : List (String × Schema)}
    {acc m : List (String × Value)} {k : String}
    (hacc : k ∈ acc.map Prod.fst) (h : exampleProperties mode acc props = .ok m) :
    k ∈ m.map Prod.fst := by
  induction props generalizing acc with
  | nil =>
    rw [exampleProperties_nil] at h
    simp only [Except.ok.injEq] at h
    subst h
    exact hacc
  | cons p rest ih =>
    obtain ⟨k', v'⟩ := p
    cases hexcl : excludeFromMode mode v' with
    | true =>
      rw [exampleProperties_cons_excl hexcl] at h
      exact ih hacc h
    | false =>
      cases hoe : OpenAPIExample mode v' with
      | error e =>
        rw [exampleProperties_cons_err hexcl hoe] at h
        simp at h
      | ok ex =>
        rw [exampleProperties_cons_ok hexcl hoe] at h
        refine ih ?_ h
        rw [mapSet_map_fst_mem]
        exact Or.inr hacc

theorem exampleProperties_excluded_not_mem {mode : Mode} {props : List (String × Schema)}
    {acc m : List (String × Value)} {k : String} {sub : Schema}
    (hnd : (props.map Prod.fst).Nodup) (hmem : (k, sub) ∈ props)
    (hexcl : excludeFromMode mode sub = true) (hacc : k ∉ acc.map Prod.fst)
    (h : exampleProperties mode acc props = .ok m) : k ∉ m.map Prod.fst := by
  induction props generalizing acc with
  | nil => simp at hmem
  | cons p rest ih =>
    obtain ⟨k', v'⟩ := p
    simp only [List.map_cons, List.nodup_cons] at hnd
    rcases List.mem_cons.mp hmem with heq | hmem'
    · injection heq with hk1 hk2
      subst hk1
      subst hk2
      rw [exampleProperties_cons_excl hexcl] at h
      exact exampleProperties_not_mem hacc hnd.1 h
    · have hk' : k ≠ k' := by
        intro hkk
        subst hkk
        exact hnd.1 (List.mem_map.mpr ⟨(k, sub), hmem', rfl⟩)
      cases hexcl' : excludeFromMode mode v' with
      | true =>
        rw [exampleProperties_cons_excl hexcl'] at h
        exact ih hnd.2 hmem' hacc h
      | false =>
        cases hoe : OpenAPIExample mode v' with
        | error e =>
          rw [exampleProperties_cons_err hexcl' hoe] at h
          simp at h
        | ok ex =>
          rw [exampleProperties_cons_ok hexcl' hoe] at h
          refine ih hnd.2 hmem' ?_ h
          rw [mapSet_map_fst_mem]
          push_neg
          exact ⟨hk', hacc⟩

theorem exampleProperties_included_mem {mode : Mode} {props : List (String × Schema)}
    {acc m : List (String × Value)} {k : String} {sub : Schema}
    (hmem : (k, sub) ∈ props) (hincl : excludeFromMode mode sub = false)
    (h : exampleProperties mode acc props = .ok m) : k ∈ m.map Prod.fst := by
  induction props generalizing acc with
  | nil => simp at hmem
  | cons p rest ih =>
    obtain ⟨k', v'⟩ := p
    rcases List.mem_cons.mp hmem with heq | hmem'
    · injection heq with hk1 hk2
      subst hk1
      subst hk2
      cases hoe : OpenAPIExample mode sub with
      | error e =>
        rw [exampleProperties_cons_err hincl hoe] at h
        simp at h
      | ok ex =>
        rw [exampleProperties_cons_ok hincl hoe] at h
        refine exampleProperties_mem_of_acc ?_ h
        rw [mapSet_map_fst_mem]
        exact Or.inl rfl
    · cases hexcl' : excludeFromMode mode v' with
      | true =>
        rw [exampleProperties_cons_excl hexcl'] at h
        exact ih hmem' h
      | false =>
        cases hoe : OpenAPIExample mode v' with
        | error e =>
          rw [exampleProperties_cons_err hexcl' hoe] at h
          simp at h
        | ok ex =>
          rw [exampleProperties_cons_ok hexcl' hoe] at h
          exact ih hmem' h

/-- For an object-typed schema, the keys of a successful synthesis agree
with the keys of the property loop on every key other than the
synthetic additional-properties key. -/
theorem OpenAPIExample_object_keys {mode : Mode} {s : Schema} {l : List (String × Value)}
    (h0 : getSchemaExample s = none) (hT : s.Typ = "object") (hI : s.Items = none)
    (hres : OpenAPIExample mode s = .ok (.obj l)) (k : String)
    (hk : k ≠ "additionalPropertyName") :
    ∃ m, exampleProperties mode [] s.Properties = .ok m ∧
      (k ∈ l.map Prod.fst ↔ k ∈ m.map Prod.fst) := by
  rw [OpenAPIExample_object h0 hT hI] at hres
  rcases hep : exampleProperties mode [] s.Properties with e | m
  · rw [hep] at hres
    simp at hres
  · rw [hep] at hres
    rcases ha : s.AdditionalProperties with _ | addl
    · rw [ha] at hres
      simp only [Except.ok.injEq, Value.obj.injEq] at hres
      subst hres
      exact ⟨m, rfl, Iff.rfl⟩
    · rw [ha] at hres
      cases hx : excludeFromMode mode addl with
      | true =>
        simp [hx] at hres
        subst hres
        exact ⟨m, rfl, Iff.rfl⟩
      | false =>
        cases hoa : OpenAPIExample mode addl with
        | error e =>
          simp [hx, hoa] at hres
        | ok ex =>
          simp [hx, hoa] at hres
          subst hres
          refine ⟨m, rfl, ?_⟩
          rw [mapSet_map_fst_mem]
          simp [hk]

/-- C5: in a synthesized object, a read-only property is excluded in
request mode but included in response mode (when not also write-only),
and a write-only property is excluded in response mode but included in
request mode (when not also read-only). -/
theorem c5_mode_exclusion (mode : Mode) (s : Schema) (k : String) (sub : Schema)
    (l : List (String × Value))
    (h1 : s.Example = none) (h2 : s.Default = none) (h3 : s.Enum = [])
    (hT : s.Typ = "object") (hI : s.Items = none)
    (hnd : (s.Properties.map Prod.fst).Nodup)
    (hmem : (k, sub) ∈ s.Properties)
    (hk : k ≠ "additionalPropertyName")
    (hres : OpenAPIExample mode s = .ok (.obj l)) :
    (mode = .request → sub.ReadOnly = true → k ∉ l.map Prod.fst) ∧
    (mode = .response → sub.ReadOnly = true → sub.WriteOnly = false → k ∈ l.map Prod.fst) ∧
    (mode = .response → sub.WriteOnly = true → k ∉ l.map Prod.fst) ∧
    (mode = .request → sub.WriteOnly = true → sub.ReadOnly = false → k ∈ l.map Prod.fst) := by
  have h0 := getSchemaExample_eq_none h1 h2 h3
  obtain ⟨m, hep, hiff⟩ := OpenAPIExample_object_keys h0 hT hI hres k hk
  refine ⟨fun hmode hro => ?_, fun hmode hro hwo => ?_, fun hmode hwo => ?_,
    fun hmode hwo hro => ?_⟩
  · subst hmode
    rw [hiff]
    exact exampleProperties_excluded_not_mem hnd hmem (by simp [excludeFromMode, hro])
      (by simp) hep
  · subst hmode
    rw [hiff]
    exact exampleProperties_included_mem hmem (by simp [excludeFromMode, hwo]) hep
  · subst hmode
    rw [hiff]
    exact exampleProperties_excluded_not_mem hnd hmem (by simp [excludeFromMode, hwo])
      (by simp) hep
  · subst hmode
    rw [hiff]
    exact exampleProperties_included_mem hmem (by simp [excludeFromMode, hro]) hep

theorem exObj_request : OpenAPIExample .request exObj = .ok (.obj [("wo", .bool true)]) := by
  rw [@OpenAPIExample_object Mode.request exObj rfl rfl rfl]
  have hp : exObj.Properties = [("ro", roProp), ("wo", woProp)] := rfl
  rw [hp, exampleProperties_cons_excl (by decide),
    exampleProperties_cons_ok (by decide) (@OpenAPIExample_boolean Mode.request woProp rfl rfl),
    exampleProperties_nil]
  rfl

theorem exObj_response : OpenAPIExample .response exObj = .ok (.obj [("ro", .bool true)]) := by
  rw [@OpenAPIExample_object Mode.response exObj rfl rfl rfl]
  have hp : exObj.Properties = [("ro", roProp), ("wo", woProp)] := rfl
  rw [hp, exampleProperties_cons_ok (by decide) (@OpenAPIExample_boolean Mode.response roProp rfl rfl),
    exampleProperties_cons_excl (by decide), exampleProperties_nil]
  rfl

/-- Witness for C5: in the concrete object, the read-only property is
missing from the request body but present in the response body, and the
write-only property the other way round. -/
theorem c5_mode_exclusion_witness :
    ("ro" ∉ ([("wo", Value.bool true)]).map Prod.fst ∧
     "ro" ∈ ([("ro", Value.bool true)]).map Prod.fst) ∧
    ("wo" ∉ ([("ro", Value.bool true)]).map Prod.fst ∧
     "wo" ∈ ([("wo", Value.bool true)]).map Prod.fst) := by
  have hmemro : ("ro", roProp) ∈ exObj.Properties := by
    have hp : exObj.Properties = [("ro", roProp), ("wo", woProp)] := rfl
    rw [hp]
    exact List.mem_cons_self _ _
  have hmemwo : ("wo", woProp) ∈ exObj.Properties := by
    have hp : exObj.Properties = [("ro", roProp), ("wo", woProp)] := rfl
    rw [hp]
    exact List.mem_cons_of_mem _ (List.mem_cons_self _ _)
  refine ⟨⟨?_, ?_⟩, ⟨?_, ?_⟩⟩
  · exact (c5_mode_exclusion .request exObj "ro" roProp [("wo", .bool true)]
      rfl rfl rfl rfl rfl (by decide) hmemro (by decide) exObj_request).1 rfl rfl
  · exact (c5_mode_exclusion .response exObj "ro" roProp [("ro", .bool true)]
      rfl rfl rfl rfl rfl (by decide) hmemro (by decide) exObj_response).2.1 rfl rfl rfl
  · exact (c5_mode_exclusion .response exObj "wo" woProp [("ro", .bool true)]
      rfl rfl rfl rfl rfl (by decide) hmemwo (by decide) exObj_response).2.2.1 rfl rfl
  · exact (c5_mode_exclusion .request exObj "wo" woProp [("wo", .bool true)]
      rfl rfl rfl rfl rfl (by decide) hmemwo (by decide) exObj_request).2.2.2 rfl rfl rfl

/-- C6: the Prefer header with a status directive and a quoted example
directive parses to the expected directive map; commas, semicolons and
spaces separate interchangeably; quotes protect embedded separators and
are stripped; a bare key maps to the empty string. -/
theorem c6_parsePreferHeader :
    parsePreferHeader "status=200; example=\"in progress\"" =
      [("status", "200"), ("example", "in progress")] ∧
    parsePreferHeader "status=200, example=\"in progress\"" =
      [("status", "200"), ("example", "in progress")] ∧
    parsePreferHeader "status=200 example=\"in progress\"" =
      [("status", "200"), ("example", "in progress")] ∧
    parsePreferHeader "respond-async" = [("respond-async", "")] :=
  ⟨rfl, rfl, rfl, rfl⟩

/-- C9: Match is true exactly when some compiled Accept pattern matches
the candidate media type; an absent Accept header means no negotiator
and no media type is rejected; the vendored JSON media type matches
itself and rejects text/plain. -/
theorem c9_content_negotiation :
    (∀ (cn : ContentNegotiator) (mt : String),
      cn.Match mt = true ↔ ∃ g ∈ cn.globs, globMatch g mt.data = true) ∧
    mkNegotiator "" = none ∧
    (∀ mt : String, negRejects none mt = false) ∧
    (NewContentNegotiator "application/vnd.foo+json").Match "application/vnd.foo+json" = true ∧
    (NewContentNegotiator "application/vnd.foo+json").Match "text/plain" = false := by
  refine ⟨fun cn mt => ?_, rfl, fun mt => rfl, rfl, rfl⟩
  simp [ContentNegotiator.Match, List.any_eq_true]

/-- C7: with a status directive, the exactly matching response key is
the sole candidate; an unmatched directive falls back to the declared
default response; without a default the selection fails with the
no-example error. -/
theorem c7_status_fallback (neg : Option ContentNegotiator) (prefer : List (String × String))
    (pick : Nat → Nat) (op : Operation) (sv : String)
    (hst : mapContainsKey prefer "status" = true)
    (hsv : mapGetD prefer "status" "" = sv) :
    (∀ r, op.Responses.lookup sv = some r →
      getExample neg prefer pick op =
        (match tryResponses neg prefer pick [(sv, r)] with
         | some out => .ok out
         | none => .error .noExample)) ∧
    (op.Responses.lookup sv = none → ∀ d, op.Responses.lookup "default" = some d →
      getExample neg prefer pick op =
        (match tryResponses neg prefer pick [("default", d)] with
         | some out => .ok out
         | none => .error .noExample)) ∧
    (op.Responses.lookup sv = none → op.Responses.lookup "default" = none →
      getExample neg prefer pick op = .error .noExample) := by
  refine ⟨fun r hr => ?_, fun hn d hd => ?_, fun hn hd => ?_⟩
  · simp [getExample, hst, hsv, hr]
  · simp [getExample, hst, hsv, hn, hd]
  · simp [getExample, hst, hsv, hn, hd]

/-- Witness for C7 at a concrete operation: an exactly matching status
directive, a fallback to default, and a failing selection. -/
theorem c7_status_fallback_witness :
    getExample none [("status", "204")] (fun _ => 0)
        (Operation.mk [("204", Response.mk none), ("default", Response.mk none)]) =
      (match tryResponses none [("status", "204")] (fun _ => 0) [("204", Response.mk none)] with
       | some out => .ok out
       | none => .error .noExample) ∧
    getExample none [("status", "999")] (fun _ => 0)
        (Operation.mk [("204", Response.mk none), ("default", Response.mk none)]) =
      (match tryResponses none [("status", "999")] (fun _ => 0) [("default", Response.mk none)] with
       | some out => .ok out
       | none => .error .noExample) ∧
    getExample none [("status", "999")] (fun _ => 0)
        (Operation.mk [("204", Response.mk none)]) = .error .noExample :=
  ⟨(c7_status_fallback none [("status", "204")] (fun _ => 0)
      (Operation.mk [("204", Response.mk none), ("default", Response.mk none)]) "204"
      rfl rfl).1 (Response.mk none) rfl,
   (c7_status_fallback none [("status", "999")] (fun _ => 0)
      (Operation.mk [("204", Response.mk none), ("default", Response.mk none)]) "999"
      rfl rfl).2.1 rfl (Response.mk none) rfl,
   (c7_status_fallback none [("status", "999")] (fun _ => 0)
      (Operation.mk [("204", Response.mk none)]) "999" rfl rfl).2.2 rfl rfl⟩

/-- C8: a failed example resolution on one media type is recoverable
(the loop moves to the next entry), a success returns immediately, a
negotiator rejection skips the entry, an exhausted response falls
through to the next response, and only full exhaustion turns into the
no-example error of getExample. -/
theorem c8_recoverable_failures (neg : Option ContentNegotiator)
    (prefer : List (String × String)) (pick : Nat → Nat) (status : Int) (mt : String)
    (c : MediaType) (rest : List (String × MediaType)) :
    (∀ e, negRejects neg mt = false → getTypedExample prefer pick c = .error e →
      tryContent neg prefer pick status ((mt, c) :: rest) =
        tryContent neg prefer pick status rest) ∧
    (∀ v, negRejects neg mt = false → getTypedExample prefer pick c = .ok v →
      tryContent neg prefer pick status ((mt, c) :: rest) = some (status, mt, v)) ∧
    (negRejects neg mt = true →
      tryContent neg prefer pick status ((mt, c) :: rest) =
        tryContent neg prefer pick status rest) ∧
    (∀ (s : String) (r : Response) (rrest : List (String × Response)) content,
      r.Content = some content →
      tryContent neg prefer pick (respStatus prefer s) content = none →
      tryResponses neg prefer pick ((s, r) :: rrest) = tryResponses neg prefer pick rrest) ∧
    (∀ op : Operation, mapContainsKey prefer "status" = false →
      tryResponses neg prefer pick (orderResponses op.Responses) = none →
      getExample neg prefer pick op = .error .noExample) ∧
    tryResponses neg prefer pick [] = none := by
  refine ⟨fun e hn he => ?_, fun v hn hv => ?_, fun hn => ?_,
    fun s r rrest content hc ht => ?_, fun op hst ht => ?_, rfl⟩
  · simp [tryContent, hn, he]
  · simp [tryContent, hn, hv]
  · simp [tryContent, hn]
  · simp [tryResponses, hc, ht]
  · simp [getExample, hst, ht]

/-- Witness for C8: each clause applied at a concrete selector state. -/
theorem c8_recoverable_failures_witness :
    tryContent none [] (fun _ => 0) 200
        [("application/json", MediaType.mk none [] none)] =
      tryContent none [] (fun _ => 0) 200 [] ∧
    tryContent none [] (fun _ => 0) 200
        [("application/json", MediaType.mk (some (.str "hi")) [] none)] =
      some (200, "application/json", .str "hi") ∧
    tryContent (some (NewContentNegotiator "text/plain")) [] (fun _ => 0) 200
        [("application/json", MediaType.mk none [] none)] =
      tryContent (some (NewContentNegotiator "text/plain")) [] (fun _ => 0) 200 [] ∧
    tryResponses none [] (fun _ => 0)
        [("500", Response.mk (some [("application/json", MediaType.mk none [] none)]))] =
      tryResponses none [] (fun _ => 0) [] ∧
    getExample none [] (fun _ => 0)
        (Operation.mk [("500", Response.mk (some [("application/json",
          MediaType.mk none [] none)]))]) = .error .noExample :=
  ⟨(c8_recoverable_failures none [] (fun _ => 0) 200 "application/json"
      (MediaType.mk none [] none) []).1 .noExample rfl rfl,
   (c8_recoverable_failures none [] (fun _ => 0) 200 "application/json"
      (MediaType.mk (some (.str "hi")) [] none) []).2.1 (.str "hi") rfl rfl,
   (c8_recoverable_failures (some (NewContentNegotiator "text/plain")) [] (fun _ => 0) 200
      "application/json" (MediaType.mk none [] none) []).2.2.1 rfl,
   (c8_recoverable_failures none [] (fun _ => 0) 200 "application/json"
      (MediaType.mk none [] none) []).2.2.2.1 "500"
      (Response.mk (some [("application/json", MediaType.mk none [] none)])) []
      [("application/json", MediaType.mk none [] none)] rfl rfl,
   (c8_recoverable_failures none [] (fun _ => 0) 200 "application/json"
      (MediaType.mk none [] none) []).2.2.2.2.1
      (Operation.mk [("500", Response.mk (some [("application/json",
        MediaType.mk none [] none)]))]) rfl rfl⟩

/-- C10: when the selection falls back to the default response because
the status directive named an undeclared key, the served status is the
parsed directive value, and only an unparseable directive falls back
to 200. -/
theorem c10_default_status (neg : Option ContentNegotiator) (prefer : List (String × String))
    (pick : Nat → Nat) (op : Operation) (sv : String) (d : Response)
    (hst : mapContainsKey prefer "status" = true)
    (hsv : mapGetD prefer "status" "" = sv)
    (hn : op.Responses.lookup sv = none)
    (hd : op.Responses.lookup "default" = some d) :
    (∀ v, atoi? sv = some v → respStatus prefer "default" = v) ∧
    (atoi? sv = none → respStatus prefer "default" = 200) ∧
    (d.Content = none →
      getExample neg prefer pick op = .ok ((atoi? sv).getD 200, "", .str "")) := by
  have hdef : atoi? "default" = none := rfl
  refine ⟨fun v hv => ?_, fun hv => ?_, fun hc => ?_⟩
  · simp [respStatus, hdef, hsv, hv]
  · simp [respStatus, hdef, hsv, hv]
  · simp only [getExample, hst, hsv, hn, hd, Bool.not_true]
    simp [tryResponses, hc, respStatus, hdef, hsv]
    cases hv : atoi? sv <;> simp [hv]

/-- Witness for C10: a parseable undeclared status directive serves the
default body under the requested code; an unparseable one serves 200. -/
theorem c10_default_status_witness :
    getExample none [("status", "299")] (fun _ => 0)
      (Operation.mk [("default", Response.mk none)]) = .ok (299, "", .str "") ∧
    respStatus [("status", "teapot")] "default" = 200 :=
  ⟨(c10_default_status none [("status", "299")] (fun _ => 0)
      (Operation.mk [("default", Response.mk none)]) "299" (Response.mk none)
      rfl rfl rfl rfl).2.2 rfl,
   (c10_default_status none [("status", "teapot")] (fun _ => 0)
      (Operation.mk [("default", Response.mk none)]) "teapot" (Response.mk none)
      rfl rfl rfl rfl).2.1 rfl⟩

theorem synthNode_rec {g : List SchemaNode} {mode : Mode} {visited : List Nat} {i : Nat}
    {node : SchemaNode} (hn : g[i]? = some node) (hv : i ∈ visited) :
    synthNode g mode visited i = .error .recursive := by
  rw [synthNode.eq_def]
  split
  · next heq =>
    rw [hn] at heq
    simp at heq
  · next node2 heq =>
    simp [hv]

theorem synthNode_object_step {g : List SchemaNode} {mode : Mode} {visited : List Nat}
    {i : Nat} {node : SchemaNode} (hn : g[i]? = some node) (hv : i ∉ visited)
    (hx : nodeExplicit node = none) (ht : node.typ = "object") (hit : node.items = none)
    (ha : node.additionalProperties = none) :
    synthNode g mode visited i =
      (match synthProps g mode (i :: visited) [] node.properties with
       | .error e => .error e
       | .ok m => .ok (.obj m)) := by
  rw [synthNode.eq_def]
  split
  · next heq =>
    rw [hn] at heq
    simp at heq
  · next node2 heq =>
    rw [hn] at heq
    injection heq with heq2
    subst heq2
    simp [hv, hx, ht, hit, ha]

theorem synthProps_single {g : List SchemaNode} {mode : Mode} {visited : List Nat}
    {k : String} {j : Nat} (hexcl : excludeNodeRef g mode j = false) :
    synthProps g mode visited [] [(k, j)] =
      (match synthNode g mode visited j with
       | .error e => .error (.property k e)
       | .ok ex => .ok [(k, ex)]) := by
  rw [synthProps.eq_def]
  simp only [hexcl]
  simp
  rcases hs : synthNode g mode visited j with e | ex
  · rfl
  · show synthProps g mode visited (mapSet [] k ex) [] = Except.ok [(k, ex)]
    rw [synthProps.eq_def]
    rfl

theorem excludeNodeRef_false {g : List SchemaNode} {mode : Mode} {j : Nat}
    {node : SchemaNode} (h : g[j]? = some node) (h1 : node.readOnly = false)
    (h2 : node.writeOnly = false) : excludeNodeRef g mode j = false := by
  simp [excludeNodeRef, h, h1, h2]

theorem selfChain_getElem? {n k : Nat} (h : k ≤ n) :
    (selfChain n)[k]? = some (chainNode (min (k + 1) n)) := by
  simp [selfChain, List.getElem?_map, List.getElem?_range (show k < n + 1 by omega)]

theorem selfChain_rec_aux (n : Nat) (mode : Mode) :
    ∀ (d k : Nat) (visited : List Nat), k + d = n → (∀ j ∈ visited, j < k) →
      ∃ e, synthNode (selfChain n) mode visited k = .error (.property "next" e) ∧
        SpecErr.isRec e = true := by
  intro d
  induction d with
  | zero =>
    intro k visited hkd hvis
    have hk : k = n := by omega
    subst hk
    have hmin : min (k + 1) k = k := by omega
    have hn : (selfChain k)[k]? = some (chainNode k) := by
      rw [selfChain_getElem? (le_refl k), hmin]
    have hv : k ∉ visited := fun h => absurd (hvis k h) (lt_irrefl k)
    rw [synthNode_object_step hn hv rfl rfl rfl rfl,
      show (chainNode k).properties = [("next", k)] from rfl,
      synthProps_single (excludeNodeRef_false hn rfl rfl),
      synthNode_rec hn (List.mem_cons_self k visited)]
    exact ⟨.recursive, rfl, rfl⟩
  | succ d ih =>
    intro k visited hkd hvis
    have hk : k < n := by omega
    have hmin : min (k + 1) n = k + 1 := by omega
    have hn : (selfChain n)[k]? = some (chainNode (k + 1)) := by
      rw [selfChain_getElem? (by omega), hmin]
    have hnext : (selfChain n)[k + 1]? = some (chainNode (min (k + 2) n)) :=
      selfChain_getElem? (by omega)
    have hv : k ∉ visited := fun h => absurd (hvis k h) (lt_irrefl k)
    rw [synthNode_object_step hn hv rfl rfl rfl rfl,
      show (chainNode (k + 1)).properties = [("next", k + 1)] from rfl,
      synthProps_single (excludeNodeRef_false hnext rfl rfl)]
    obtain ⟨e, he, hrec⟩ := ih (k + 1) (k :: visited) (by omega) (by
      intro j hj
      rcases List.mem_cons.mp hj with rfl | hj'
      · omega
      · exact Nat.lt_succ_of_lt (hvis j hj'))
    rw [he]
    exact ⟨.property "next" e, rfl, by simp [SpecErr.isRec, hrec]⟩

/-- C1: the spec-modelled Example Synthesizer is a total function of
every finite schema graph, cyclic ones included (its recursion is
bounded by the path-scoped cycle detection), and on a schema graph that
references itself along a single root-to-leaf synthesis path it
returns, at every recursion depth, an error whose root cause is the
recursion error, propagated through the property names on the path. -/
theorem c1_cycle_detection :
    (∀ (g : List SchemaNode) (mode : Mode) (i : Nat), ∃ r, Synthesize g mode i = r) ∧
    (∀ (n : Nat) (mode : Mode),
      ∃ e, Synthesize (selfChain n) mode 0 = .error (.property "next" e) ∧
        SpecErr.isRec e = true) := by
  refine ⟨fun g mode i => ⟨_, rfl⟩, fun n mode => ?_⟩
  exact selfChain_rec_aux n mode n 0 [] (by omega) (by simp)

end Apisprout

